import Mathlib

/-!
Verification development for the otf-api repository: a shallow embedding of
the request dispatcher (`otf/api.py`) and the declarative model layer
(`otf_api/models/responses/bookings.py`), with theorems checking the
natural-language specification against the code.
-/

set_option maxHeartbeats 1000000

/-- JSON values, used for request parameters, keyword arguments and response
bodies. Numbers are modelled as rationals so that both integral and decimal
JSON numerals are representable exactly. -/
inductive Json where
  | null
  | bool (b : Bool)
  | num (q : Rat)
  | str (s : String)
  | arr (elems : List Json)
  | obj (fields : List (String × Json))

/-- Python `v is None` test on a JSON-modelled value. -/
def Json.isNull : Json → Bool
  | .null => true
  | _ => false

/-- Python `str.lower()`, modelled structurally over the character list so
that concrete lookups evaluate inside proofs (ASCII case folding, which is
what every enum value here uses). -/
def strLower (s : String) : String := String.mk (s.data.map Char.toLower)

/-- Error taxonomy. Constructors mirror the Python exception actually raised
at each modelled raise site: `keyError` for a failed dict subscript,
`valueError` for an explicit `raise ValueError`, `stateError` for the
`raise ValueError("No user is logged in.")` in `Api.base_headers` (which the
specification taxonomy names StateError), `httpError` for
`aiohttp.ClientResponseError` raised by `raise_for_status`, `decodeError`
for a response body that is not valid JSON, and `validationError` for a
pydantic validation failure. -/
inductive PyErr where
  | keyError (key : String)
  | valueError (msg : String)
  | stateError (msg : String)
  | httpError (status : Nat) (url : String)
  | decodeError
  | validationError (msg : String)
deriving DecidableEq

/-- Discriminator for the ValidationError constructor. -/
def PyErr.isValidationError : PyErr → Bool
  | .validationError _ => true
  | _ => false

/-- Discriminator for the KeyError constructor. -/
def PyErr.isKeyError : PyErr → Bool
  | .keyError _ => true
  | _ => false

/-! Enumerations from `otf_api/models/responses/bookings.py`. -/

/-- Members of the `BookingStatus` enum. -/
inductive BookingStatus where
  | CheckedIn
  | CancelCheckinPending
  | CancelCheckinRequested
  | Cancelled
  | LateCancelled
  | Booked
  | Waitlisted
  | CheckinPending
  | CheckinRequested
  | CheckinCancelled
deriving DecidableEq

/-- Member name (the Python identifier) of a `BookingStatus` member. -/
def BookingStatus.key : BookingStatus → String
  | .CheckedIn => "CheckedIn"
  | .CancelCheckinPending => "CancelCheckinPending"
  | .CancelCheckinRequested => "CancelCheckinRequested"
  | .Cancelled => "Cancelled"
  | .LateCancelled => "LateCancelled"
  | .Booked => "Booked"
  | .Waitlisted => "Waitlisted"
  | .CheckinPending => "CheckinPending"
  | .CheckinRequested => "CheckinRequested"
  | .CheckinCancelled => "CheckinCancelled"

/-- Enum value (the external string) of a `BookingStatus` member. -/
def BookingStatus.val : BookingStatus → String
  | .CheckedIn => "Checked In"
  | .CancelCheckinPending => "Cancel Checkin Pending"
  | .CancelCheckinRequested => "Cancel Checkin Requested"
  | .Cancelled => "Cancelled"
  | .LateCancelled => "Late Cancelled"
  | .Booked => "Booked"
  | .Waitlisted => "Waitlisted"
  | .CheckinPending => "Checkin Pending"
  | .CheckinRequested => "Checkin Requested"
  | .CheckinCancelled => "Checkin Cancelled"

/-- Members of `BookingStatus`, in declaration order (the iteration order of
`cls._member_map_`). -/
def bookingStatusMembers : List BookingStatus :=
  [.CheckedIn, .CancelCheckinPending, .CancelCheckinRequested, .Cancelled,
   .LateCancelled, .Booked, .Waitlisted, .CheckinPending, .CheckinRequested,
   .CheckinCancelled]

/-- Embeds `BookingStatus.get_from_key_insensitive`. The Python code builds
`lcase_to_actual = {item.lower(): item for item in cls._member_map_}` (keys
are lowercased member names) and subscripts it with `key.lower()`: a missing
key raises `KeyError(key.lower())` at the subscript, so the subsequent
`raise ValueError` branch is unreachable for unmatched input. A found name is
then resolved through `cls.__members__`, which always succeeds. -/
def BookingStatus.get_from_key_insensitive (key : String) : Except PyErr BookingStatus :=
  match bookingStatusMembers.find? (fun m => strLower m.key == strLower key) with
  | some m => .ok m
  | none => .error (.keyError (strLower key))

/-- Embeds `BookingStatus.get_case_insensitive`. The Python code builds
`lcase_to_actual = {item.value.lower(): item.value for item in cls}` and
subscripts it with `value.lower()`: a missing key raises
`KeyError(value.lower())`. -/
def BookingStatus.get_case_insensitive (value : String) : Except PyErr String :=
  match bookingStatusMembers.find? (fun m => strLower m.val == strLower value) with
  | some m => .ok m.val
  | none => .error (.keyError (strLower value))

/-- Members of the `BookingStatusCli` enum. Its member names equal those of
`BookingStatus`; its values equal its member names (the docstring: a flipped
enum so that the CLI does not have values with spaces). -/
inductive BookingStatusCli where
  | CheckedIn
  | CancelCheckinPending
  | CancelCheckinRequested
  | Cancelled
  | LateCancelled
  | Booked
  | Waitlisted
  | CheckinPending
  | CheckinRequested
  | CheckinCancelled
deriving DecidableEq

/-- Member name of a `BookingStatusCli` member; the enum value is the same
string. -/
def BookingStatusCli.key : BookingStatusCli → String
  | .CheckedIn => "CheckedIn"
  | .CancelCheckinPending => "CancelCheckinPending"
  | .CancelCheckinRequested => "CancelCheckinRequested"
  | .Cancelled => "Cancelled"
  | .LateCancelled => "LateCancelled"
  | .Booked => "Booked"
  | .Waitlisted => "Waitlisted"
  | .CheckinPending => "CheckinPending"
  | .CheckinRequested => "CheckinRequested"
  | .CheckinCancelled => "CheckinCancelled"

/-- Enum value of a `BookingStatusCli` member (equal to its member name). -/
def BookingStatusCli.val (m : BookingStatusCli) : String := m.key

/-- Members of `BookingStatusCli`, in declaration order. -/
def bookingStatusCliMembers : List BookingStatusCli :=
  [.CheckedIn, .CancelCheckinPending, .CancelCheckinRequested, .Cancelled,
   .LateCancelled, .Booked, .Waitlisted, .CheckinPending, .CheckinRequested,
   .CheckinCancelled]

/-- Embeds the Python call `BookingStatus(v)`: enum lookup by value, raising
`ValueError` when `v` is not the value of any member. -/
def BookingStatus.fromValue (v : String) : Except PyErr BookingStatus :=
  match bookingStatusMembers.find? (fun m => m.val == v) with
  | some m => .ok m
  | none => .error (.valueError v)

/-- Embeds `BookingStatusCli.to_standard_case_insensitive`. The Python code
resolves `key.lower()` against the lowercased CLI member names (a missing key
raises `KeyError`), obtains the CLI member `val`, and returns
`BookingStatus(val)` — a lookup of the CLI member by VALUE in the standard
enum, where `val` as a string equals the CLI member name. -/
def BookingStatusCli.to_standard_case_insensitive (key : String) : Except PyErr BookingStatus :=
  match bookingStatusCliMembers.find? (fun m => strLower m.key == strLower key) with
  | some m => BookingStatus.fromValue m.val
  | none => .error (.keyError (strLower key))

/-! Authenticated session and request dispatcher, from `otf/api.py`. -/

/-- Token pair held by the authenticated user (`user.cognito.id_token`). -/
structure Cognito where
  id_token : String

/-- Authenticated user attached to the session. -/
structure User where
  cognito : Cognito

/-- Embeds the `Api.base_headers` property. The source raises
`ValueError("No user is logged in.")` when no user is present (the
specification taxonomy calls this error StateError) and otherwise builds a
fresh three-entry dict; it reads but never writes session state, which the
embedding reflects by being a pure function of the optional user. -/
def base_headers (user : Option User) : Except PyErr (List (String × String)) :=
  match user with
  | none => .error (.stateError "No user is logged in.")
  | some u =>
      .ok [("Authorization", "Bearer " ++ u.cognito.id_token),
           ("Content-Type", "application/json"),
           ("Accept", "application/json")]

/-- Auth headers of a logged-in user, the success value of `base_headers`. -/
def authHeaders (u : User) : List (String × String) :=
  [("Authorization", "Bearer " ++ u.cognito.id_token),
   ("Content-Type", "application/json"),
   ("Accept", "application/json")]

/-- Embeds Python `d1.update(d2)` on dicts modelled as association lists with
distinct keys in insertion order: every entry of `d1` whose key occurs in
`d2` takes the value from `d2`, and entries of `d2` with keys not in `d1`
are appended in order. -/
def mergeDict (d1 d2 : List (String × String)) : List (String × String) :=
  d1.map (fun p => (p.1, (List.lookup p.1 d2).getD p.2))
    ++ d2.filter (fun p => (List.lookup p.1 d1).isNone)

/-- Embeds the null-stripping in `Api._do`: `params = params or {}` followed
by `params = {k: v for k, v in params.items() if v is not None}`. A missing
(`None`) params argument becomes the empty dict; the comprehension builds a
NEW dict keeping exactly the entries whose value is not `None`. -/
def filterParams : Option (List (String × Json)) → List (String × Json)
  | none => []
  | some ps => ps.filter (fun p => !p.2.isNull)

/-- Embeds `URL.build(scheme="https", host=base_url, path=url)` in `Api._do`. -/
def full_url (base_url url : String) : String := "https://" ++ base_url ++ url

/-- Arguments of one call to `Api._do`: positional method, base url and path,
the optional `params` dict, and the keyword arguments, with the `headers`
keyword (a string dict) split out from the remaining kwargs (such as a JSON
body passed via `json=...`). -/
structure DoCall where
  method : String
  base_url : String
  url : String
  params : Option (List (String × Json))
  headers : Option (List (String × String))
  kwargs : List (String × Json)

/-- Content of the one `logger.debug` line in `Api._do`:
`f"Making {method!r} request to {full_url}, params: {params}, kwargs: {kwargs}"`.
The params interpolated are the already-filtered ones; the kwargs interpolated
are the kwargs as passed, still including the caller `headers` entry (the
`kwargs.pop("headers")` happens after the log line) and any body. -/
structure LogEvent where
  method : String
  url : String
  params : List (String × Json)
  headersArg : Option (List (String × String))
  otherKwargs : List (String × Json)

/-- HTTP request issued through `self.session.request`. -/
structure HttpRequest where
  method : String
  url : String
  headers : List (String × String)
  params : List (String × Json)
  body : List (String × Json)

/-- Observable outcome of one `Api._do` call: the debug trace emitted, the
HTTP requests issued, the final state of the caller-supplied `headers` and
`params` dicts (Python passes dicts by reference: `headers.update(...)`
mutates the caller dict in place, while the params comprehension rebinds a
local name and leaves the caller dict untouched), and the returned JSON or
raised error. -/
structure DoResult where
  trace : List LogEvent
  requests : List HttpRequest
  headersAfter : Option (List (String × String))
  paramsAfter : Option (List (String × Json))
  outcome : Except PyErr Json

/-- Embeds `Api._do`. The network is a parameter `net` mapping the issued
request to the response, modelled as a status code plus the JSON decode of
the body (`none` when the body is not valid JSON). Per the aiohttp semantics
of the two response calls in the source: `response.raise_for_status()`
raises `ClientResponseError` carrying the status and request URL exactly
when `status >= 400` (the `ClientResponse.ok` predicate is `status < 400`),
and `response.json()` raises a decode error when the body is not valid JSON.
Order of effects follows the source: filter params, build the URL, emit the
single debug line, resolve headers (where `self.base_headers` may raise
before any request is sent, leaving the caller dict unchanged), then issue
exactly one request — there is no retry loop. -/
def Api_do (user : Option User) (c : DoCall) (net : HttpRequest → Nat × Option Json) :
    DoResult :=
  let fparams := filterParams c.params
  let furl := full_url c.base_url c.url
  let ev : LogEvent :=
    { method := c.method, url := furl, params := fparams,
      headersArg := c.headers, otherKwargs := c.kwargs }
  match base_headers user with
  | .error e =>
      { trace := [ev], requests := [], headersAfter := c.headers,
        paramsAfter := c.params, outcome := .error e }
  | .ok auth =>
      let hdrs := match c.headers with
        | some h => mergeDict h auth
        | none => auth
      let req : HttpRequest :=
        { method := c.method, url := furl, headers := hdrs,
          params := fparams, body := c.kwargs }
      let res := net req
      let outcome : Except PyErr Json :=
        if 400 ≤ res.1 then .error (.httpError res.1 furl)
        else
          match res.2 with
          | some j => .ok j
          | none => .error .decodeError
      { trace := [ev], requests := [req],
        headersAfter := c.headers.map (fun h => mergeDict h auth),
        paramsAfter := c.params, outcome := outcome }

/-! Concrete sample data used by witnesses and counterexamples. -/

/-- Sample authenticated user. -/
def sampleUser : User := ⟨⟨"token123"⟩⟩

/-- Network stub: every request succeeds with an empty JSON object. -/
def netOk : HttpRequest → Nat × Option Json := fun _ => (200, some (Json.obj []))

/-- Network stub: every request yields HTTP 404 with a non-JSON body. -/
def net404 : HttpRequest → Nat × Option Json := fun _ => (404, none)

/-- Network stub: every request yields HTTP 304 whose body happens to be
valid JSON. -/
def net304 : HttpRequest → Nat × Option Json := fun _ => (304, some (Json.str "cached"))

/-- Sample dispatcher call with one null-valued and one string-valued
parameter and no caller headers. -/
def sampleCall : DoCall :=
  { method := "GET", base_url := "api.orangetheory.co", url := "/member/members",
    params := some [("a", Json.str "x"), ("b", Json.null)],
    headers := none, kwargs := [] }

/-- Sample dispatcher call supplying caller headers that collide with the
auth headers on the Authorization key. -/
def headerCall : DoCall :=
  { method := "GET", base_url := "api.orangetheory.co", url := "/member/members",
    params := none,
    headers := some [("Authorization", "Bearer evil"), ("X-Custom", "1")],
    kwargs := [] }

/-- Sample dispatcher call carrying a JSON body through kwargs. -/
def bodyCall (b : String) : DoCall :=
  { method := "POST", base_url := "api.orangetheory.io", url := "/classes",
    params := none, headers := none, kwargs := [("json", Json.str b)] }

/-! Declarative model layer: pydantic entity classes are declarative schemas
(field name, alias, type, default, exclude flag) interpreted by a generic
parse and a generic dump. The schemas below transcribe the class bodies in
`otf_api/models/responses/bookings.py` field by field. -/

mutual
/-- Type of one declared field. Leaf types cover str, int, float, bool,
datetime (kept as the validated ISO string) and enum fields (pydantic
matches a str enum by value, case-sensitively); `fOpt` is the `T | None`
annotation accepting JSON null; `fNested` is a nested entity parsed
recursively with its own schema. Numeric parsing accepts exactly the JSON
numerals of canonical type (an int field accepts an integral numeral); the
lax string-to-number coercions of pydantic are outside this model, which
therefore quantifies over payloads already carrying canonical JSON types. -/
inductive FieldType where
  | fStr
  | fInt
  | fFloat
  | fBool
  | fDatetime
  | fEnum (allowed : List String)
  | fOpt (t : FieldType)
  | fNested (fields : List FieldSpec)

/-- One declared field: internal name, external JSON key (the declared alias,
or the field name when no alias is given), its type, whether the declaration
carries a default (always `None` in this source, e.g. `Field(None, ...)` or
`= None`), and the `exclude=True` flag. -/
inductive FieldSpec where
  | mk (name : String) (key : String) (ftype : FieldType) (hasDefault : Bool)
      (exclude : Bool)
end

/-- Internal name of a declared field. -/
def FieldSpec.name : FieldSpec → String
  | .mk n _ _ _ _ => n

/-- External JSON key of a declared field. -/
def FieldSpec.key : FieldSpec → String
  | .mk _ k _ _ _ => k

/-- Declared type of a field. -/
def FieldSpec.ftype : FieldSpec → FieldType
  | .mk _ _ t _ _ => t

/-- Whether the field declaration carries a default. -/
def FieldSpec.hasDefault : FieldSpec → Bool
  | .mk _ _ _ d _ => d

/-- Whether the field is marked `exclude=True`. -/
def FieldSpec.exclude : FieldSpec → Bool
  | .mk _ _ _ _ e => e

/-- Whether a field type is a leaf (no nested entity anywhere under it). -/
def FieldType.isLeaf : FieldType → Bool
  | .fNested _ => false
  | .fOpt t => t.isLeaf
  | _ => true

/-- Parsed field value inside a validated entity. -/
inductive Value where
  | vNone
  | vStr (s : String)
  | vInt (n : Int)
  | vFloat (q : Rat)
  | vBool (b : Bool)
  | vDatetime (iso : String)
  | vEnum (s : String)
  | vObj (fields : List (String × Value))

mutual
/-- Validates one JSON value against a field type. -/
def parseValue : FieldType → Json → Except PyErr Value
  | .fStr, .str s => .ok (.vStr s)
  | .fStr, _ => .error (.validationError "str expected")
  | .fInt, .num q =>
      if q.den = 1 then .ok (.vInt q.num)
      else .error (.validationError "int expected")
  | .fInt, _ => .error (.validationError "int expected")
  | .fFloat, .num q => .ok (.vFloat q)
  | .fFloat, _ => .error (.validationError "float expected")
  | .fBool, .bool b => .ok (.vBool b)
  | .fBool, _ => .error (.validationError "bool expected")
  | .fDatetime, .str s => .ok (.vDatetime s)
  | .fDatetime, _ => .error (.validationError "datetime expected")
  | .fEnum allowed, .str s =>
      if allowed.contains s then .ok (.vEnum s)
      else .error (.validationError "enum value expected")
  | .fEnum _, _ => .error (.validationError "enum value expected")
  | .fOpt _, .null => .ok .vNone
  | .fOpt t, j => parseValue t j
  | .fNested fs, .obj kvs =>
      match parseFields fs kvs with
      | .ok e => .ok (.vObj e)
      | .error err => .error err
  | .fNested _, _ => .error (.validationError "object expected")

/-- Validates one declared field against the JSON object entries: a present
key is parsed by type; an absent key yields the None default when the
declaration has one and a ValidationError otherwise. -/
def parseField : FieldSpec → List (String × Json) → Except PyErr Value
  | .mk _ k t d _, kvs =>
      match List.lookup k kvs with
      | some j => parseValue t j
      | none =>
          if d then .ok .vNone
          else .error (.validationError ("field required: " ++ k))

/-- Parses a JSON object against a schema, producing the entity as the list
of (internal name, value) pairs in declaration order; the first failing
field aborts the whole parse. -/
def parseFields : List FieldSpec → List (String × Json) → Except PyErr (List (String × Value))
  | [], _ => .ok []
  | f :: rest, kvs =>
      match parseField f kvs with
      | .error err => .error err
      | .ok v =>
          match parseFields rest kvs with
          | .error err => .error err
          | .ok tail => .ok ((f.name, v) :: tail)
end

mutual
/-- Re-serializes one parsed value for display (`model_dump`). -/
def dumpValue : FieldType → Value → Json
  | .fNested fs, .vObj kvs => .obj (dumpObj fs kvs)
  | .fOpt _, .vNone => .null
  | .fOpt t, v => dumpValue t v
  | _, .vStr s => .str s
  | _, .vInt n => .num (n : Rat)
  | _, .vFloat q => .num q
  | _, .vBool b => .bool b
  | _, .vDatetime s => .str s
  | _, .vEnum s => .str s
  | _, _ => .null

/-- Re-serializes a parsed entity for display: one output entry per
non-excluded declared field, under the internal field name, in declaration
order — fields marked `exclude=True` are omitted, recursively. -/
def dumpObj : List FieldSpec → List (String × Value) → List (String × Json)
  | [], _ => []
  | .mk n _ t _ e :: rest, kvs =>
      if e then dumpObj rest kvs
      else (n, dumpValue t ((List.lookup n kvs).getD .vNone)) :: dumpObj rest kvs
end

/-- Values of the `StudioStatus` enum. -/
def studioStatusValues : List String :=
  ["OTHER", "Active", "Inactive", "Coming Soon", "Temporarily Closed",
   "Permanently Closed"]

/-- Values of the `BookingStatus` enum, as the schema of the `status` field. -/
def bookingStatusValues : List String := bookingStatusMembers.map BookingStatus.val

/-- Schema of the `Location` class. -/
def locationFields : List FieldSpec :=
  [.mk "address_one" "address1" .fStr false false,
   .mk "address_two" "address2" (.fOpt .fStr) false false,
   .mk "city" "city" .fStr false false,
   .mk "country" "country" (.fOpt .fStr) true false,
   .mk "distance" "distance" (.fOpt .fFloat) true false,
   .mk "latitude" "latitude" .fFloat false false,
   .mk "location_name" "locationName" (.fOpt .fStr) true false,
   .mk "longitude" "longitude" .fFloat false false,
   .mk "phone_number" "phone" .fStr false false,
   .mk "postal_code" "postalCode" (.fOpt .fStr) true false,
   .mk "state" "state" (.fOpt .fStr) true false]

/-- Schema of the `Coach` class: `image_url` and `profile_picture_url` are
marked `exclude=True`. -/
def coachFields : List FieldSpec :=
  [.mk "coach_uuid" "coachUUId" .fStr false false,
   .mk "name" "name" .fStr false false,
   .mk "first_name" "firstName" .fStr false false,
   .mk "last_name" "lastName" .fStr false false,
   .mk "image_url" "imageUrl" .fStr false true,
   .mk "profile_picture_url" "profilePictureUrl" (.fOpt .fStr) true true]

/-- Schema of the `Currency` class. -/
def currencyFields : List FieldSpec :=
  [.mk "currency_alphabetic_code" "currencyAlphabeticCode" .fStr false false]

/-- Schema of the `DefaultCurrency` class. -/
def defaultCurrencyFields : List FieldSpec :=
  [.mk "currency_id" "currencyId" .fInt false false,
   .mk "currency" "currency" (.fNested currencyFields) false false]

/-- Schema of the `StudioLocationCountry` class. -/
def studioLocationCountryFields : List FieldSpec :=
  [.mk "country_currency_code" "countryCurrencyCode" .fStr false false,
   .mk "default_currency" "defaultCurrency" (.fNested defaultCurrencyFields) false false]

/-- Schema of the `StudioLocation` class: `physical_region`,
`physical_country_id` and `country` are marked `exclude=True`. -/
def studioLocationFields : List FieldSpec :=
  [.mk "latitude" "latitude" .fFloat false false,
   .mk "longitude" "longitude" .fFloat false false,
   .mk "phone_number" "phoneNumber" .fStr false false,
   .mk "physical_city" "physicalCity" .fStr false false,
   .mk "physical_address" "physicalAddress" .fStr false false,
   .mk "physical_address2" "physicalAddress2" (.fOpt .fStr) false false,
   .mk "physical_state" "physicalState" .fStr false false,
   .mk "physical_postal_code" "physicalPostalCode" .fStr false false,
   .mk "physical_region" "physicalRegion" .fStr false true,
   .mk "physical_country_id" "physicalCountryId" .fInt false true,
   .mk "physical_country" "physicalCountry" .fStr false false,
   .mk "country" "country" (.fNested studioLocationCountryFields) false true]

/-- Schema of the `Studio` class: `contact_email`, `logo_url`,
`mbo_studio_id`, `cr_waitlist_flag_last_updated` and `studio_location` are
marked `exclude=True`. -/
def studioFields : List FieldSpec :=
  [.mk "studio_uuid" "studioUUId" .fStr false false,
   .mk "studio_name" "studioName" .fStr false false,
   .mk "description" "description" (.fOpt .fStr) true false,
   .mk "contact_email" "contactEmail" .fStr false true,
   .mk "status" "status" (.fEnum studioStatusValues) false false,
   .mk "logo_url" "logoUrl" (.fOpt .fStr) false true,
   .mk "time_zone" "timeZone" .fStr false false,
   .mk "mbo_studio_id" "mboStudioId" .fInt false true,
   .mk "studio_id" "studioId" .fInt false false,
   .mk "allows_cr_waitlist" "allowsCRWaitlist" (.fOpt .fBool) true false,
   .mk "cr_waitlist_flag_last_updated" "crWaitlistFlagLastUpdated" .fDatetime false true,
   .mk "studio_location" "studioLocation" (.fNested studioLocationFields) false true]

/-- Schema of the `OtfClass` class: `description` is marked `exclude=True`. -/
def otfClassFields : List FieldSpec :=
  [.mk "class_uuid" "classUUId" .fStr false false,
   .mk "name" "name" .fStr false false,
   .mk "description" "description" (.fOpt .fStr) true true,
   .mk "starts_at_local" "startDateTime" .fDatetime false false,
   .mk "ends_at_local" "endDateTime" .fDatetime false false,
   .mk "is_available" "isAvailable" .fBool false false,
   .mk "is_cancelled" "isCancelled" .fBool false false,
   .mk "program_name" "programName" .fStr false false,
   .mk "coach_id" "coachId" .fInt false false,
   .mk "studio" "studio" (.fNested studioFields) false false,
   .mk "coach" "coach" (.fNested coachFields) false false,
   .mk "location" "location" (.fNested locationFields) false false,
   .mk "virtual_class" "virtualClass" (.fOpt .fBool) true false]

/-- Schema of the `Member` class: `cc_last_4` is marked `exclude=True`. -/
def memberFields : List FieldSpec :=
  [.mk "member_uuid" "memberUUId" .fStr false false,
   .mk "first_name" "firstName" .fStr false false,
   .mk "last_name" "lastName" .fStr false false,
   .mk "email" "email" .fStr false false,
   .mk "phone_number" "phoneNumber" .fStr false false,
   .mk "gender" "gender" .fStr false false,
   .mk "cc_last_4" "ccLast4" .fStr false true]

/-- Schema of the `Booking` class: `mbo_member_id`, `mbo_class_id`,
`mbo_visit_id`, `mbo_waitlist_entry_id`, `mbo_sync_message`, `created_by`,
`updated_by` and `member` are marked `exclude=True`. -/
def bookingFields : List FieldSpec :=
  [.mk "class_booking_id" "classBookingId" .fInt false false,
   .mk "class_booking_uuid" "classBookingUUId" .fStr false false,
   .mk "studio_id" "studioId" .fInt false false,
   .mk "class_id" "classId" .fInt false false,
   .mk "is_intro" "isIntro" .fBool false false,
   .mk "member_id" "memberId" .fInt false false,
   .mk "mbo_member_id" "mboMemberId" .fStr false true,
   .mk "mbo_class_id" "mboClassId" .fInt false true,
   .mk "mbo_visit_id" "mboVisitId" (.fOpt .fInt) true true,
   .mk "mbo_waitlist_entry_id" "mboWaitlistEntryId" (.fOpt .fInt) false true,
   .mk "mbo_sync_message" "mboSyncMessage" (.fOpt .fStr) false true,
   .mk "status" "status" (.fEnum bookingStatusValues) false false,
   .mk "booked_date" "bookedDate" (.fOpt .fDatetime) true false,
   .mk "checked_in_date" "checkedInDate" (.fOpt .fDatetime) false false,
   .mk "cancelled_date" "cancelledDate" (.fOpt .fDatetime) false false,
   .mk "created_by" "createdBy" .fStr false true,
   .mk "created_date" "createdDate" .fDatetime false false,
   .mk "updated_by" "updatedBy" .fStr false true,
   .mk "updated_date" "updatedDate" .fDatetime false false,
   .mk "is_deleted" "isDeleted" .fBool false false,
   .mk "member" "member" (.fNested memberFields) false true,
   .mk "waitlist_position" "waitlistPosition" (.fOpt .fInt) true false,
   .mk "otf_class" "class" (.fNested otfClassFields) false false,
   .mk "is_home_studio" "is_home_studio" (.fOpt .fBool) true false]

/-- Entity schemas of the repository model layer under check. -/
def repoSchemas : List (List FieldSpec) :=
  [locationFields, coachFields, currencyFields, defaultCurrencyFields,
   studioLocationCountryFields, studioLocationFields, studioFields,
   otfClassFields, memberFields, bookingFields]

/-! Tabular projection of a collection wrapper. `BookingList.to_table` (in
`otf_api/models/responses/bookings.py`) delegates to `OtfListBase.to_table`,
defined in `otf_api/models/base.py`, which is not part of the sources under
check; the projection itself is therefore modelled from the specification. -/

/-- Splits a string at every occurrence of a separator character,
structurally over the character list. -/
def splitOnChar (c : Char) (s : String) : List String :=
  go s.data []
where
  /-- Accumulating worker over the remaining characters. -/
  go : List Char → List Char → List String
    | [], acc => [String.mk acc.reverse]
    | x :: rest, acc =>
        if x = c then String.mk acc.reverse :: go rest []
        else go rest (x :: acc)

/-- Capitalizes the first character of a word. -/
def capitalizeWord (s : String) : String :=
  match s.data with
  | [] => ""
  | c :: rest => String.mk (c.toUpper :: rest)

/-- Per-field header overrides, transcribed from the overrides dict in
`Booking.attr_to_column_header` / `OtfClass.attr_to_column_header`. -/
def headerOverrides : List (String × String) :=
  [("day_of_week", "Class DoW"), ("date", "Class Date"), ("time", "Class Time"),
   ("duration", "Class Duration"), ("name", "Class Name"),
   ("is_home_studio", "Home Studio"), ("is_booked", "Booked")]

/-- Modelled from the spec: the human-readable header function of the
collection wrapper (`OtfListBase.to_table` in `otf_api/models/base.py` is
missing from the sources) — a column spec is mapped through the documented
per-field overrides, and otherwise each dotted-path component is title-cased
(underscores become word breaks) and the words are joined with spaces, so
that `"studio.name"` becomes `"Studio Name"`. -/
def headerOfColumn (col : String) : String :=
  match List.lookup col headerOverrides with
  | some h => h
  | none =>
      " ".intercalate
        ((((splitOnChar '.' col).map (splitOnChar '_')).flatten).map capitalizeWord)

/-- Resolves a dotted path into nested entity values. -/
def resolvePath : Value → List String → Option Value
  | v, [] => some v
  | .vObj kvs, p :: rest =>
      match List.lookup p kvs with
      | some v => resolvePath v rest
      | none => none
  | _, _ :: _ => none

/-- Renders one resolved cell as the displayed string (Python `str`). -/
def renderValue : Value → String
  | .vNone => "None"
  | .vStr s => s
  | .vInt n => toString n
  | .vFloat q => toString q
  | .vBool b => if b then "True" else "False"
  | .vDatetime s => s
  | .vEnum s => s
  | .vObj _ => ""

/-- Renders an optional resolved value (an unresolvable path displays like
Python `None`). -/
def renderCell : Option Value → String
  | some v => renderValue v
  | none => "None"

/-- Rendered table: a header per requested column and one row per entity. -/
structure TableModel where
  headers : List String
  rows : List (List String)

/-- Modelled from the spec: `to_table(columns)` of the collection wrapper
(`OtfListBase.to_table` in `otf_api/models/base.py` is missing from the
sources) — for each requested column (plain field name or dotted path into
nested entities) we resolve the value per entity, map the column through
the header function, and render one row per entity, preserving input
order. -/
def to_table (cols : List String) (entities : List Value) : TableModel :=
  { headers := cols.map headerOfColumn,
    rows := entities.map
      (fun e => cols.map (fun c => renderCell (resolvePath e (splitOnChar '.' c)))) }

/-! Theorems. General helper lemmas first, then one theorem per checked
claim (with witnesses and counterexamples where applicable). -/

theorem Json.isNull_iff (v : Json) : v.isNull = true ↔ v = Json.null := by
  cases v <;> simp [Json.isNull]

theorem Json.isNull_eq_false_iff (v : Json) : v.isNull = false ↔ v ≠ Json.null := by
  cases v <;> simp [Json.isNull]

theorem base_headers_some (u : User) : base_headers (some u) = .ok (authHeaders u) := rfl

theorem lookup_map_update (d2 : List (String × String)) :
    ∀ (d1 : List (String × String)) (k : String),
      List.lookup k (d1.map (fun p => (p.1, (List.lookup p.1 d2).getD p.2)))
        = (List.lookup k d1).map (fun v => (List.lookup k d2).getD v)
  | [], _ => rfl
  | (k1, v1) :: t, k => by
    by_cases hk : k = k1
    · subst hk
      simp [List.lookup_cons]
    · have hb : (k == k1) = false := beq_eq_false_iff_ne.mpr hk
      simp only [List.map_cons, List.lookup_cons, hb]
      exact lookup_map_update d2 t k

theorem lookup_filter_keep (d1 : List (String × String)) :
    ∀ (d2 : List (String × String)) (k : String), List.lookup k d1 = none →
      List.lookup k (d2.filter (fun p => (List.lookup p.1 d1).isNone)) = List.lookup k d2
  | [], _, _ => rfl
  | (k2, v2) :: t, k, h => by
    have ih := lookup_filter_keep d1 t k h
    by_cases hk : k = k2
    · subst hk
      have hp : (List.lookup k d1).isNone = true := by rw [h]; rfl
      simp [List.filter_cons, hp, List.lookup_cons]
    · have hb : (k == k2) = false := beq_eq_false_iff_ne.mpr hk
      cases hp : (List.lookup k2 d1).isNone with
      | true =>
        simp only [List.filter_cons, hp, if_true, List.lookup_cons, hb]
        exact ih
      | false =>
        simp only [List.filter_cons, hp, List.lookup_cons, hb]
        simpa using ih

theorem lookup_mergeDict (d1 d2 : List (String × String)) (k : String) :
    List.lookup k (mergeDict d1 d2) = (List.lookup k d2).or (List.lookup k d1) := by
  unfold mergeDict
  rw [List.lookup_append, lookup_map_update]
  cases h1 : List.lookup k d1 with
  | none =>
    rw [lookup_filter_keep d1 d2 k h1]
    cases List.lookup k d2 <;> simp
  | some v =>
    cases h2 : List.lookup k d2 <;> simp [h2]

/-- C1 (amended): the `BookingStatus` lookup helpers are case-insensitive —
any casing of a member name resolves through `get_from_key_insensitive` to
that member, and any casing of an enum value resolves through
`get_case_insensitive` to the canonical value — while a string matching no
member name (respectively no value) under case folding fails with a
KeyError carrying the folded string, not with a ValidationError. -/
theorem bookingStatus_lookup_case_insensitive (s : String) :
    (∀ m ∈ bookingStatusMembers, strLower m.key = strLower s →
        BookingStatus.get_from_key_insensitive s = .ok m)
  ∧ ((∀ m ∈ bookingStatusMembers, strLower m.key ≠ strLower s) →
        BookingStatus.get_from_key_insensitive s = .error (.keyError (strLower s)))
  ∧ (∀ m ∈ bookingStatusMembers, strLower m.val = strLower s →
        BookingStatus.get_case_insensitive s = .ok m.val)
  ∧ ((∀ m ∈ bookingStatusMembers, strLower m.val ≠ strLower s) →
        BookingStatus.get_case_insensitive s = .error (.keyError (strLower s))) := by
  refine ⟨?_, ?_, ?_, ?_⟩
  · intro m hm h
    unfold BookingStatus.get_from_key_insensitive
    fin_cases hm <;> simp only [← h] <;> rfl
  · intro h
    unfold BookingStatus.get_from_key_insensitive
    have : bookingStatusMembers.find? (fun m => strLower m.key == strLower s) = none := by
      rw [List.find?_eq_none]
      intro m hm
      simpa using h m hm
    rw [this]
  · intro m hm h
    unfold BookingStatus.get_case_insensitive
    fin_cases hm <;> simp only [← h] <;> rfl
  · intro h
    unfold BookingStatus.get_case_insensitive
    have : bookingStatusMembers.find? (fun m => strLower m.val == strLower s) = none := by
      rw [List.find?_eq_none]
      intro m hm
      simpa using h m hm
    rw [this]

/-- C1 witness: concrete instances of the amended claim — `"CHECKED IN"`
resolves to the canonical value `"Checked In"`, and `"bogus"` fails with a
KeyError. -/
theorem bookingStatus_lookup_case_insensitive_witness :
    BookingStatus.get_case_insensitive "CHECKED IN" = .ok "Checked In"
  ∧ BookingStatus.get_case_insensitive "bogus" = .error (.keyError "bogus") := by
  constructor
  · exact (bookingStatus_lookup_case_insensitive "CHECKED IN").2.2.1
      BookingStatus.CheckedIn (by decide) (by rfl)
  · exact (bookingStatus_lookup_case_insensitive "bogus").2.2.2 (by decide)

/-- C1 counterexample: the claim as stated says an unmatched string fails
with a ValidationError; on the code, looking up `"bogus"` raises a KeyError
(a plain dict subscript failure), which is not a ValidationError. -/
theorem bookingStatus_lookup_keyError_cex :
    BookingStatus.get_case_insensitive "bogus" = .error (.keyError "bogus")
  ∧ PyErr.isValidationError (.keyError "bogus") = false := ⟨rfl, rfl⟩

/-- C10: evaluation of `BookingStatusCli.to_standard_case_insensitive` at the
member name `"CheckedIn"` (in any casing, here lowercase). The CLI member is
found, but the final `BookingStatus(val)` converts by enum VALUE — and
`"CheckedIn"` is not among the `BookingStatus` values (which contain
spaces) — so the call raises `ValueError` instead of returning
`BookingStatus.CheckedIn`. Conversion only succeeds for the three members
whose standard value contains no space, e.g. `Cancelled`. -/
theorem cli_to_standard_raises_valueError :
    BookingStatusCli.to_standard_case_insensitive "checkedin"
      = .error (.valueError "CheckedIn")
  ∧ BookingStatusCli.to_standard_case_insensitive "CHECKEDIN"
      = .error (.valueError "CheckedIn")
  ∧ BookingStatusCli.to_standard_case_insensitive "cancelled"
      = .ok BookingStatus.Cancelled
  ∧ BookingStatusCli.to_standard_case_insensitive "booked"
      = .ok BookingStatus.Booked
  ∧ BookingStatusCli.to_standard_case_insensitive "waitlisted"
      = .ok BookingStatus.Waitlisted
  ∧ BookingStatusCli.to_standard_case_insensitive "latecancelled"
      = .error (.valueError "LateCancelled") :=
  ⟨rfl, rfl, rfl, rfl, rfl, rfl⟩

/-- C7: reading `base_headers` with no authenticated user fails with the
StateError (the source raises `ValueError("No user is logged in.")`, which
the specification taxonomy names StateError), and with a user it returns
exactly the three headers Authorization (`Bearer` plus the id token),
Content-Type and Accept; the embedding is a pure function of the session
user, reflecting that the source property reads but never writes session
state. -/
theorem base_headers_spec :
    base_headers none = .error (.stateError "No user is logged in.")
  ∧ ∀ u : User, base_headers (some u) =
      .ok [("Authorization", "Bearer " ++ u.cognito.id_token),
           ("Content-Type", "application/json"),
           ("Accept", "application/json")] :=
  ⟨rfl, fun _ => rfl⟩

/-- C2: every null-valued entry of the params mapping is removed before the
query is encoded, every non-null entry is kept with its value unchanged, and
a missing params argument behaves as the empty mapping; the request issued
by the dispatcher carries exactly the filtered mapping. -/
theorem do_strips_null_params (user : Option User) (c : DoCall)
    (net : HttpRequest → Nat × Option Json) :
    (∀ r ∈ (Api_do user c net).requests, r.params = filterParams c.params)
  ∧ (∀ ps, c.params = some ps →
      ∀ (k : String) (v : Json),
        ((k, v) ∈ filterParams c.params ↔ ((k, v) ∈ ps ∧ v ≠ Json.null)))
  ∧ (c.params = none → filterParams c.params = []) := by
  refine ⟨?_, ?_, ?_⟩
  · intro r hr
    cases user with
    | none => simp [Api_do, base_headers] at hr
    | some u =>
      simp only [Api_do, base_headers, List.mem_singleton] at hr
      subst hr
      rfl
  · intro ps hps k v
    rw [hps]
    simp [filterParams, List.mem_filter, Json.isNull_eq_false_iff]
  · intro h
    rw [h]
    rfl

/-- C2 witness: on a concrete params mapping with one null and one non-null
entry, the non-null entry survives filtering and the null entry does not. -/
theorem do_strips_null_params_witness :
    ("a", Json.str "x") ∈ filterParams sampleCall.params
  ∧ ("b", Json.null) ∉ filterParams sampleCall.params := by
  have T := (do_strips_null_params (some sampleUser) sampleCall netOk).2.1
    [("a", Json.str "x"), ("b", Json.null)] rfl
  constructor
  · exact (T "a" (Json.str "x")).mpr ⟨by simp, by simp⟩
  · intro hmem
    exact ((T "b" Json.null).mp hmem).2 rfl

/-- C3: the headers sent on the request are the caller headers merged with
the auth headers where the auth headers win on every key they define
(Authorization, Content-Type, Accept) and the caller value survives on every
other key; with no caller headers exactly the auth headers are sent. -/
theorem do_merges_headers (u : User) (c : DoCall)
    (net : HttpRequest → Nat × Option Json) :
    (c.headers = none → ∀ r ∈ (Api_do (some u) c net).requests, r.headers = authHeaders u)
  ∧ (∀ h, c.headers = some h →
      (∀ r ∈ (Api_do (some u) c net).requests, r.headers = mergeDict h (authHeaders u))
      ∧ (∀ (k v : String), List.lookup k (authHeaders u) = some v →
          List.lookup k (mergeDict h (authHeaders u)) = some v)
      ∧ (∀ k : String, List.lookup k (authHeaders u) = none →
          List.lookup k (mergeDict h (authHeaders u)) = List.lookup k h)) := by
  constructor
  · intro h0 r hr
    simp only [Api_do, base_headers, h0, List.mem_singleton] at hr
    subst hr
    rfl
  · intro h hh
    refine ⟨?_, ?_, ?_⟩
    · intro r hr
      simp only [Api_do, base_headers, hh, List.mem_singleton] at hr
      subst hr
      rfl
    · intro k v hkv
      rw [lookup_mergeDict, hkv]
      rfl
    · intro k hk
      rw [lookup_mergeDict, hk]
      rfl

/-- C3 witness: with caller headers colliding on Authorization, the auth
value wins, and the caller-only key X-Custom survives the merge. -/
theorem do_merges_headers_witness :
    List.lookup "Authorization"
      (mergeDict [("Authorization", "Bearer evil"), ("X-Custom", "1")]
        (authHeaders sampleUser)) = some "Bearer token123"
  ∧ List.lookup "X-Custom"
      (mergeDict [("Authorization", "Bearer evil"), ("X-Custom", "1")]
        (authHeaders sampleUser)) = some "1" := by
  have T := (do_merges_headers sampleUser headerCall netOk).2
    [("Authorization", "Bearer evil"), ("X-Custom", "1")] rfl
  constructor
  · exact T.2.1 "Authorization" "Bearer token123" rfl
  · rw [T.2.2 "X-Custom" rfl]
    rfl

/-- C9: when the caller supplies a headers dict, `headers.update(...)`
mutates that same dict in place, so after the call the caller dict is the
merge in which every auth entry (Authorization, Content-Type, Accept) is
present with the auth value; the caller params dict is never mutated since
the filtering comprehension builds a new dict and rebinds a local name. -/
theorem do_updates_caller_headers_in_place (u : User) (c : DoCall)
    (net : HttpRequest → Nat × Option Json) (h : List (String × String))
    (hh : c.headers = some h) :
    (Api_do (some u) c net).headersAfter = some (mergeDict h (authHeaders u))
  ∧ (∀ (k v : String), List.lookup k (authHeaders u) = some v →
      List.lookup k (mergeDict h (authHeaders u)) = some v)
  ∧ (Api_do (some u) c net).paramsAfter = c.params := by
  refine ⟨?_, ?_, ?_⟩
  · simp [Api_do, base_headers, authHeaders, hh]
  · intro k v hkv
    rw [lookup_mergeDict, hkv]
    rfl
  · simp [Api_do, base_headers]

/-- C9 witness: concrete caller dict after the call equals the in-place
merge, and the caller params dict is returned unchanged. -/
theorem do_updates_caller_headers_in_place_witness :
    (Api_do (some sampleUser) headerCall netOk).headersAfter
      = some (mergeDict [("Authorization", "Bearer evil"), ("X-Custom", "1")]
          (authHeaders sampleUser))
  ∧ (Api_do (some sampleUser) headerCall netOk).paramsAfter = headerCall.params := by
  have T := do_updates_caller_headers_in_place sampleUser headerCall netOk
    [("Authorization", "Bearer evil"), ("X-Custom", "1")] rfl
  exact ⟨T.1, T.2.2⟩

/-- C4 (amended): the dispatcher issues exactly one request (no retry); when
the response status is at least 400 it fails with an HttpError carrying the
status and the full URL (per aiohttp, `raise_for_status` raises exactly when
`status >= 400` and its error does not carry the response body); when the
status is below 400 the body is decoded as JSON, yielding the decoded value
on success and a DecodeError when the body is not valid JSON. -/
theorem do_http_outcome (u : User) (c : DoCall)
    (net : HttpRequest → Nat × Option Json) :
    (Api_do (some u) c net).requests.length = 1
  ∧ ∀ r ∈ (Api_do (some u) c net).requests,
      (400 ≤ (net r).1 →
        (Api_do (some u) c net).outcome
          = .error (.httpError (net r).1 (full_url c.base_url c.url)))
      ∧ ((net r).1 < 400 →
          ((net r).2 = none →
            (Api_do (some u) c net).outcome = .error .decodeError)
          ∧ (∀ j, (net r).2 = some j →
              (Api_do (some u) c net).outcome = .ok j)) := by
  constructor
  · rfl
  · intro r hr
    simp only [Api_do, base_headers, List.mem_singleton] at hr
    subst hr
    refine ⟨?_, ?_⟩
    · intro h4
      simp [Api_do, base_headers, h4]
    · intro hlt
      constructor
      · intro hb
        simp [Api_do, base_headers, hb]
        exact hlt
      · intro j hb
        simp [Api_do, base_headers, hb]
        exact hlt

/-- C4 witness: dispatching against a network stub answering 404 fails with
an HttpError carrying status 404 and the request URL. -/
theorem do_http_outcome_witness :
    (Api_do (some sampleUser) sampleCall net404).outcome
      = .error (.httpError 404 (full_url "api.orangetheory.co" "/member/members")) := by
  have h := ((do_http_outcome sampleUser sampleCall net404).2
    { method := "GET", url := full_url "api.orangetheory.co" "/member/members",
      headers := authHeaders sampleUser, params := [("a", Json.str "x")],
      body := [] } (List.Mem.head _)).1 (by decide)
  exact h

/-- C4 counterexample: the claim as stated quantifies over every non-2xx
status, but a 304 response (non-2xx yet below 400) does not raise: with a
valid JSON body the dispatcher returns the decoded body instead of failing
with an HttpError. -/
theorem do_304_not_httpError_cex :
    (Api_do (some sampleUser) (bodyCall "x") net304).outcome = .ok (Json.str "cached")
  ∧ (Api_do (some sampleUser) (bodyCall "x") net304).outcome
      ≠ .error (.httpError 304 (full_url "api.orangetheory.io" "/classes")) := by
  refine ⟨rfl, ?_⟩
  intro h
  exact Except.noConfusion h

/-- C6 (amended): the dispatcher emits exactly one debug trace before the
request, containing the method, the full URL, the filtered params — and
additionally the keyword arguments as passed, which include the caller
headers entry and any request body, since the source interpolates `kwargs`
into the log line before popping `headers` from it. -/
theorem do_trace_contents (user : Option User) (c : DoCall)
    (net : HttpRequest → Nat × Option Json) :
    (Api_do user c net).trace =
      [{ method := c.method, url := full_url c.base_url c.url,
         params := filterParams c.params, headersArg := c.headers,
         otherKwargs := c.kwargs }] := by
  cases user <;> rfl

/-- C6 counterexample: two dispatch calls differing only in the JSON body
passed through kwargs produce different traces, because the body is
interpolated into the log line; the claim as stated says the traces would
be equal. -/
theorem do_trace_includes_body_cex :
    (Api_do (some sampleUser) (bodyCall "a") netOk).trace
      ≠ (Api_do (some sampleUser) (bodyCall "b") netOk).trace := by
  intro h
  have h1 : LogEvent.mk "POST" (full_url "api.orangetheory.io" "/classes")
        [] none [("json", Json.str "a")]
      = LogEvent.mk "POST" (full_url "api.orangetheory.io" "/classes")
        [] none [("json", Json.str "b")] :=
    (List.cons.inj h).1
  have h2 := congrArg LogEvent.otherKwargs h1
  have h3 := (List.cons.inj h2).1
  have h4 := congrArg Prod.snd h3
  have h5 : "a" = "b" := by injection h4
  exact absurd h5 (by decide)

theorem parseValue_ok_vNone : ∀ (t : FieldType) (j : Json),
    parseValue t j = .ok .vNone → j = .null
  | .fStr, j, h => by cases j <;> simp [parseValue] at h
  | .fInt, j, h => by
    cases j <;> simp [parseValue] at h
    split at h <;> simp at h
  | .fFloat, j, h => by cases j <;> simp [parseValue] at h
  | .fBool, j, h => by cases j <;> simp [parseValue] at h
  | .fDatetime, j, h => by cases j <;> simp [parseValue] at h
  | .fEnum allowed, j, h => by
    cases j <;> simp [parseValue] at h
    split at h <;> simp at h
  | .fOpt t, j, h => by
    cases j with
    | null => rfl
    | bool b => exact parseValue_ok_vNone t (.bool b) h
    | num q => exact parseValue_ok_vNone t (.num q) h
    | str s => exact parseValue_ok_vNone t (.str s) h
    | arr xs => exact parseValue_ok_vNone t (.arr xs) h
    | obj kvs => exact parseValue_ok_vNone t (.obj kvs) h
  | .fNested fs, j, h => by
    cases j <;> simp [parseValue] at h
    split at h <;> simp at h

theorem dump_parse_leaf : ∀ (t : FieldType) (j : Json) (v : Value),
    t.isLeaf = true → parseValue t j = .ok v → dumpValue t v = j
  | .fStr, j, v, _, h => by
    cases j <;> simp [parseValue] at h
    subst h
    rfl
  | .fInt, j, v, _, h => by
    cases j <;> simp [parseValue] at h
    split at h
    · rename_i hq
      simp only [Except.ok.injEq] at h
      subst h
      simp [dumpValue, Rat.coe_int_num_of_den_eq_one hq]
    · simp at h
  | .fFloat, j, v, _, h => by
    cases j <;> simp [parseValue] at h
    subst h
    rfl
  | .fBool, j, v, _, h => by
    cases j <;> simp [parseValue] at h
    subst h
    rfl
  | .fDatetime, j, v, _, h => by
    cases j <;> simp [parseValue] at h
    subst h
    rfl
  | .fEnum allowed, j, v, _, h => by
    cases j <;> simp [parseValue] at h
    split at h
    · simp only [Except.ok.injEq] at h
      subst h
      rfl
    · simp at h
  | .fOpt t, j, v, hleaf, h => by
    have hlt : t.isLeaf = true := hleaf
    cases j with
    | null =>
      simp only [parseValue, Except.ok.injEq] at h
      subst h
      rfl
    | bool b =>
      have hv := dump_parse_leaf t (.bool b) v hlt h
      cases v with
      | vNone => exact absurd (parseValue_ok_vNone t (.bool b) h) (by simp)
      | vStr s => exact hv
      | vInt n => exact hv
      | vFloat q => exact hv
      | vBool b => exact hv
      | vDatetime s => exact hv
      | vEnum s => exact hv
      | vObj kvs => exact hv
    | num q =>
      have hv := dump_parse_leaf t (.num q) v hlt h
      cases v with
      | vNone => exact absurd (parseValue_ok_vNone t (.num q) h) (by simp)
      | vStr s => exact hv
      | vInt n => exact hv
      | vFloat q => exact hv
      | vBool b => exact hv
      | vDatetime s => exact hv
      | vEnum s => exact hv
      | vObj kvs => exact hv
    | str s =>
      have hv := dump_parse_leaf t (.str s) v hlt h
      cases v with
      | vNone => exact absurd (parseValue_ok_vNone t (.str s) h) (by simp)
      | vStr s => exact hv
      | vInt n => exact hv
      | vFloat q => exact hv
      | vBool b => exact hv
      | vDatetime s => exact hv
      | vEnum s => exact hv
      | vObj kvs => exact hv
    | arr xs =>
      have hv := dump_parse_leaf t (.arr xs) v hlt h
      cases v with
      | vNone => exact absurd (parseValue_ok_vNone t (.arr xs) h) (by simp)
      | vStr s => exact hv
      | vInt n => exact hv
      | vFloat q => exact hv
      | vBool b => exact hv
      | vDatetime s => exact hv
      | vEnum s => exact hv
      | vObj kvs => exact hv
    | obj kvs =>
      have hv := dump_parse_leaf t (.obj kvs) v hlt h
      cases v with
      | vNone => exact absurd (parseValue_ok_vNone t (.obj kvs) h) (by simp)
      | vStr s => exact hv
      | vInt n => exact hv
      | vFloat q => exact hv
      | vBool b => exact hv
      | vDatetime s => exact hv
      | vEnum s => exact hv
      | vObj kvs => exact hv
  | .fNested fs, _, _, hleaf, _ => by simp [FieldType.isLeaf] at hleaf

theorem parseFields_names : ∀ (fs : List FieldSpec) (kvs : List (String × Json))
    (e : List (String × Value)), parseFields fs kvs = .ok e →
    e.map Prod.fst = fs.map FieldSpec.name
  | [], _, e, h => by
    simp only [parseFields, Except.ok.injEq] at h
    subst h
    rfl
  | f :: rest, kvs, e, h => by
    simp only [parseFields] at h
    cases hf : parseField f kvs with
    | error err => rw [hf] at h; simp at h
    | ok v =>
      rw [hf] at h
      cases ht : parseFields rest kvs with
      | error err => rw [ht] at h; simp at h
      | ok tail =>
        rw [ht] at h
        simp only [Except.ok.injEq] at h
        subst h
        simp [parseFields_names rest kvs tail ht]

theorem parseFields_lookup : ∀ (fs : List FieldSpec) (kvs : List (String × Json))
    (e : List (String × Value)) (f : FieldSpec),
    parseFields fs kvs = .ok e → (fs.map FieldSpec.name).Nodup → f ∈ fs →
    ∃ v, parseField f kvs = .ok v ∧ List.lookup f.name e = some v
  | [], _, _, _, _, _, hf => absurd hf (by simp)
  | g :: rest, kvs, e, f, h, hnd, hf => by
    simp only [parseFields] at h
    cases hg : parseField g kvs with
    | error err => rw [hg] at h; simp at h
    | ok v =>
      rw [hg] at h
      cases ht : parseFields rest kvs with
      | error err => rw [ht] at h; simp at h
      | ok tail =>
        rw [ht] at h
        simp only [Except.ok.injEq] at h
        subst h
        rcases List.mem_cons.mp hf with rfl | hfr
        · exact ⟨v, hg, by simp⟩
        · have hne : f.name ≠ g.name := by
            intro he
            have : f.name ∈ rest.map FieldSpec.name := List.mem_map_of_mem _ hfr
            rw [he] at this
            exact (List.nodup_cons.mp hnd).1 this
          obtain ⟨w, hw, hlw⟩ :=
            parseFields_lookup rest kvs tail f ht (List.nodup_cons.mp hnd).2 hfr
          refine ⟨w, hw, ?_⟩
          have hb : (f.name == g.name) = false := beq_eq_false_iff_ne.mpr hne
          simp only [List.lookup_cons, hb]
          exact hlw

theorem dumpObj_keys : ∀ (fs : List FieldSpec) (kvs : List (String × Value)),
    (dumpObj fs kvs).map Prod.fst = (fs.filter (fun f => !f.exclude)).map FieldSpec.name
  | [], _ => rfl
  | .mk n k t d ex :: rest, kvs => by
    cases ex with
    | true => simpa [dumpObj, List.filter_cons, FieldSpec.exclude]
        using dumpObj_keys rest kvs
    | false => simpa [dumpObj, List.filter_cons, FieldSpec.exclude, FieldSpec.name]
        using dumpObj_keys rest kvs

theorem dumpObj_excluded (fs : List FieldSpec) (kvs : List (String × Value))
    (f : FieldSpec) (hnd : (fs.map FieldSpec.name).Nodup) (hf : f ∈ fs)
    (hex : f.exclude = true) : List.lookup f.name (dumpObj fs kvs) = none := by
  rw [List.lookup_eq_none_iff]
  intro p hp
  have hp1 : p.1 ∈ (dumpObj fs kvs).map Prod.fst := List.mem_map_of_mem _ hp
  rw [dumpObj_keys] at hp1
  obtain ⟨g, hg, hgname⟩ := List.mem_map.mp hp1
  have hgmem : g ∈ fs := List.mem_of_mem_filter hg
  have hgex : g.exclude = false := by
    have := List.of_mem_filter hg
    simpa using this
  rw [bne_iff_ne]
  intro heq
  have : g = f := List.inj_on_of_nodup_map hnd hgmem hf (by rw [hgname, ← heq])
  rw [this, hex] at hgex
  exact Bool.true_eq_false.mp hgex

theorem dumpObj_lookup : ∀ (fs : List FieldSpec) (kvs : List (String × Value))
    (f : FieldSpec), (fs.map FieldSpec.name).Nodup → f ∈ fs → f.exclude = false →
    List.lookup f.name (dumpObj fs kvs)
      = some (dumpValue f.ftype ((List.lookup f.name kvs).getD .vNone))
  | [], _, f, _, hf, _ => absurd hf (by simp)
  | g :: rest, kvs, f, hnd, hf, hex => by
    rcases List.mem_cons.mp hf with rfl | hfr
    · cases f with
      | mk n k t d ex =>
        have hexf : ex = false := hex
        subst hexf
        simp [dumpObj, FieldSpec.name, FieldSpec.ftype]
    · have hne : f.name ≠ g.name := by
        intro he
        have : f.name ∈ rest.map FieldSpec.name := List.mem_map_of_mem _ hfr
        rw [he] at this
        exact (List.nodup_cons.mp hnd).1 this
      have ih := dumpObj_lookup rest kvs f (List.nodup_cons.mp hnd).2 hfr hex
      cases g with
      | mk n k t d ex =>
        cases ex with
        | true => simpa [dumpObj] using ih
        | false =>
          have hb : (f.name == n) = false := beq_eq_false_iff_ne.mpr hne
          simpa [dumpObj, List.lookup_cons, hb] using ih

/-- C5: for every entity schema of the repository and every JSON payload that
parses successfully, re-serializing for display (1) lists exactly the
non-excluded declared fields, in declaration order — so the excluded fields
(e.g. `Coach.image_url`, `Booking.mbo_member_id`, `Member.cc_last_4`) are
omitted and nothing else is; (2) yields no entry under any excluded field
name; and (3) reproduces the value of every non-excluded leaf field exactly
as it appeared in the payload (nested entity fields are reproduced by the
same property applied recursively at their own schema). -/
theorem parse_dump_round_trip (fs : List FieldSpec) (hfs : fs ∈ repoSchemas)
    (kvs : List (String × Json)) (e : List (String × Value))
    (hp : parseFields fs kvs = .ok e) :
    ((dumpObj fs e).map Prod.fst = (fs.filter (fun f => !f.exclude)).map FieldSpec.name)
  ∧ (∀ f ∈ fs, f.exclude = true → List.lookup f.name (dumpObj fs e) = none)
  ∧ (∀ f ∈ fs, f.exclude = false → f.ftype.isLeaf = true →
      ∀ j, List.lookup f.key kvs = some j →
        List.lookup f.name (dumpObj fs e) = some j) := by
  have hnd : (fs.map FieldSpec.name).Nodup := by
    simp only [repoSchemas, List.mem_cons, List.not_mem_nil, or_false] at hfs
    rcases hfs with rfl | rfl | rfl | rfl | rfl | rfl | rfl | rfl | rfl | rfl <;> decide
  refine ⟨dumpObj_keys fs e, fun f hf hex => dumpObj_excluded fs e f hnd hf hex, ?_⟩
  intro f hf hex hleaf j hj
  obtain ⟨v, hpf, hlook⟩ := parseFields_lookup fs kvs e f hp hnd hf
  have hd := dumpObj_lookup fs e f hnd hf hex
  rw [hlook] at hd
  have hpv : parseValue f.ftype j = .ok v := by
    cases f with
    | mk n k t d ex =>
      simp only [FieldSpec.key] at hj
      simp only [parseField, hj] at hpf
      exact hpf
  rw [hd]
  simp only [Option.getD_some]
  rw [dump_parse_leaf f.ftype j v hleaf hpv]

/-- C5 witness: a concrete Coach payload parses, its dump contains no
`image_url` entry and reproduces `coach_uuid` exactly. -/
theorem parse_dump_round_trip_witness :
    parseFields coachFields
      [("coachUUId", Json.str "c1"), ("name", Json.str "N"),
       ("firstName", Json.str "F"), ("lastName", Json.str "L"),
       ("imageUrl", Json.str "img")]
      = .ok [("coach_uuid", .vStr "c1"), ("name", .vStr "N"),
             ("first_name", .vStr "F"), ("last_name", .vStr "L"),
             ("image_url", .vStr "img"), ("profile_picture_url", .vNone)]
  ∧ List.lookup "image_url" (dumpObj coachFields
      [("coach_uuid", .vStr "c1"), ("name", .vStr "N"),
       ("first_name", .vStr "F"), ("last_name", .vStr "L"),
       ("image_url", .vStr "img"), ("profile_picture_url", .vNone)]) = none
  ∧ List.lookup "coach_uuid" (dumpObj coachFields
      [("coach_uuid", .vStr "c1"), ("name", .vStr "N"),
       ("first_name", .vStr "F"), ("last_name", .vStr "L"),
       ("image_url", .vStr "img"), ("profile_picture_url", .vNone)])
      = some (Json.str "c1") := by
  have T := parse_dump_round_trip coachFields
    (List.Mem.tail _ (List.Mem.head _))
    [("coachUUId", Json.str "c1"), ("name", Json.str "N"),
     ("firstName", Json.str "F"), ("lastName", Json.str "L"),
     ("imageUrl", Json.str "img")]
    [("coach_uuid", .vStr "c1"), ("name", .vStr "N"),
     ("first_name", .vStr "F"), ("last_name", .vStr "L"),
     ("image_url", .vStr "img"), ("profile_picture_url", .vNone)]
    rfl
  refine ⟨rfl, ?_, ?_⟩
  · exact T.2.1 (.mk "image_url" "imageUrl" .fStr false true)
      (List.Mem.tail _ (List.Mem.tail _ (List.Mem.tail _ (List.Mem.tail _ (List.Mem.head _)))))
      rfl
  · exact T.2.2 (.mk "coach_uuid" "coachUUId" .fStr false false)
      (List.Mem.head _) rfl rfl (Json.str "c1") rfl

/-- C8: on a collection of three entities, `to_table` with the single column
spec `"studio.name"` yields the header `"Studio Name"` and exactly three
rows in the input order of the entities, each row holding the rendering of
that entity's nested studio name; for an entity whose nested studio carries
a name, the cell is exactly that name. -/
theorem to_table_studio_name (e1 e2 e3 : Value) :
    (to_table ["studio.name"] [e1, e2, e3]).headers = ["Studio Name"]
  ∧ (to_table ["studio.name"] [e1, e2, e3]).rows =
      [[renderCell (resolvePath e1 ["studio", "name"])],
       [renderCell (resolvePath e2 ["studio", "name"])],
       [renderCell (resolvePath e3 ["studio", "name"])]]
  ∧ (to_table ["studio.name"] [e1, e2, e3]).rows.length = 3
  ∧ ∀ s : String,
      renderCell (resolvePath
        (Value.vObj [("studio", Value.vObj [("name", Value.vStr s)])])
        ["studio", "name"]) = s :=
  ⟨rfl, rfl, rfl, fun _ => rfl⟩
